import Mathlib

/-!
# Verification of the Cognetix notes application core

Shallow embedding of the note-lifecycle, query, tag, share and reminder
logic of the repository (Express + Mongoose backend).  Identifiers are
modelled as natural numbers, dates as integers (milliseconds since the
epoch), and the Mongo collections as Lean lists.  Each definition is
annotated with the source file and function it embeds.

Mongoose semantics used throughout (default configuration, as in this
repository, which never sets `strict` or registers query middleware):

* schemas are strict: a field passed to `Model.create` that is not a
  schema path is discarded, and reading a non-schema path from a loaded
  document yields `undefined`;
* `required: true` fails validation when the value is `null` or absent;
* document middleware registered with `schema.pre('save', ...)` runs on
  `document.save()` only; query updates such as `findByIdAndUpdate` do
  not run it;
* a thrown validation / duplicate-key error is caught by the controller's
  `catch` block, which responds with HTTP 500 unless it checks the error
  name explicitly.
-/

namespace Cognetix

/-- HTTP-level outcomes produced by the controllers' response paths. -/
inductive ApiError where
  /-- `res.status(400)` with the given message. -/
  | badRequest (msg : String)
  /-- `res.status(404)` with the given message. -/
  | notFound (msg : String)
  /-- `res.status(403)` with the given message. -/
  | forbidden (msg : String)
  /-- `res.status(500)`: the controller's `catch` block. -/
  | serverError
  deriving Repr, DecidableEq

/-! ## JavaScript string helpers

`String.prototype.trim` and the `\s` class of the word-count regex both
recognise the same whitespace characters; on the character set exercised
by this application we model the common ASCII core. -/

/-- Whitespace as recognised by `trim()` and `/\s/` (ASCII core). -/
def isJsWs (c : Char) : Bool :=
  c = ' ' || c = '\t' || c = '\n' || c = '\r' || c = '\x0b' || c = '\x0c'

/-- `trim()` at the character-list level: strip leading and trailing
whitespace. -/
def trimL (l : List Char) : List Char :=
  ((l.dropWhile isJsWs).reverse.dropWhile isJsWs).reverse

/-- `String.prototype.trim`. -/
def jsTrim (s : String) : String :=
  ⟨trimL s.toList⟩

/-- Lower-case every character (models case-insensitive comparison). -/
def jsToLower (s : String) : String :=
  ⟨s.toList.map Char.toLower⟩

/-- Maximal runs of non-whitespace characters.
`s.split(/\s+/).filter(w => w.length > 0)` yields exactly the maximal
non-whitespace runs of `s` (the filter removes the single empty string
that `split` produces before a leading separator or on an all-whitespace
input). -/
def wsTokens : List Char → List (List Char)
  | [] => []
  | c :: rest =>
    let ts := wsTokens rest
    if isJsWs c then ts
    else
      match rest with
      | [] => [[c]]
      | d :: _ =>
        if isJsWs d then [c] :: ts
        else
          match ts with
          | [] => [[c]]
          | t :: ts' => (c :: t) :: ts'

/-- `content.trim().split(/\s+/).filter(word => word.length > 0).length`
(`src/backend/models/Note.js`, line 143). -/
def jsWordCount (s : String) : Nat :=
  (wsTokens (jsTrim s).toList).length

/-- `pat` occurs as a contiguous sublist of `l`. -/
def listContains (pat : List Char) : List Char → Bool
  | [] => pat.isEmpty
  | c :: rest => pat.isPrefixOf (c :: rest) || listContains pat rest

/-- Case-insensitive substring test: models a `$regex` filter with the
`i` option for patterns free of regex metacharacters (the substring
semantics the spec ascribes to free-text search). -/
def ciContains (hay pat : String) : Bool :=
  listContains ((jsToLower pat).toList) ((jsToLower hay).toList)

/-- `/^#([A-Fa-f0-9]{6}|[A-Fa-f0-9]{3})$/` — the note/tag colour check. -/
def colorOk (s : String) : Bool :=
  match s.toList with
  | '#' :: rest =>
    (rest.length = 6 || rest.length = 3) && rest.all (fun c => c.isDigit || ('a' ≤ c && c ≤ 'f') || ('A' ≤ c && c ≤ 'F'))
  | _ => false

/-! ## Note documents (`src/backend/models/Note.js`) -/

/-- A `Note` document: exactly the paths of `noteSchema` (attachments,
which no claim touches, are omitted; `createdAt`/`updatedAt` are the
store-managed timestamps). -/
structure Note where
  id : Nat
  title : String
  content : String
  contentType : String
  user : Nat
  folder : Option Nat
  tags : List Nat
  isPinned : Bool
  isArchived : Bool
  isTrashed : Bool
  trashedAt : Option Int
  color : String
  wordCount : Nat
  characterCount : Nat
  order : Int
  isFavorite : Bool
  lastViewedAt : Option Int
  viewCount : Nat
  createdAt : Int
  updatedAt : Int
  deriving Repr, DecidableEq

/-- `noteSchema.pre('save')` (`Note.js` lines 139–146): when the content
path is modified, recompute `characterCount` and `wordCount` from the
stored content.  Runs on `document.save()` only. -/
def noteSavePre (n : Note) (contentModified : Bool) : Note :=
  if contentModified then
    { n with characterCount := n.content.length,
             wordCount := jsWordCount n.content }
  else n

/-- `document.save()` for notes: run the pre-save middleware, then
persist; `timestamps: true` refreshes `updatedAt`. -/
def noteSave (n : Note) (contentModified : Bool) (now : Int) : Note :=
  { noteSavePre n contentModified with updatedAt := now }

/-- Schema-level validation of a note document (`noteSchema`): required
title/content with length bounds (values are trimmed by the schema's
`trim: true` before validation), `contentType` enum, colour format. -/
def noteValid (n : Note) : Bool :=
  1 ≤ n.title.length && n.title.length ≤ 200 &&
  1 ≤ n.content.length && n.content.length ≤ 50000 &&
  (n.contentType = "plain" || n.contentType = "markdown" || n.contentType = "richtext") &&
  colorOk n.color

/-- A tag document (`src/backend/models/Tag.js`): `name`, `color`,
`user`; the compound index `{ name: 1, user: 1 }` is unique. -/
structure TagRec where
  id : Nat
  name : String
  color : String
  user : Nat
  deriving Repr, DecidableEq

/-- A folder document, reduced to the paths note creation consults. -/
structure FolderRec where
  id : Nat
  name : String
  user : Nat
  parent : Option Nat
  deriving Repr, DecidableEq

/-- The persistent store the note controllers touch. -/
structure Store where
  notes : List Note
  tagRecs : List TagRec
  folders : List FolderRec
  deriving Repr, DecidableEq

/-- Request body of `POST /api/notes` (absent fields are `none`). -/
structure CreateNoteInput where
  title : Option String
  content : Option String
  isPinned : Option Bool
  color : Option String
  tags : Option (List Nat)
  folder : Option Nat
  contentType : Option String
  deriving Repr, DecidableEq

/-- `createNote` (`src/backend/controllers/noteController.js` lines
19–95): validate presence of title/content, check that every supplied
tag and the supplied folder resolve to records owned by the caller,
then `Note.create` (schema trims title/content — the controller also
trims explicitly — runs validation, and fires the pre-save middleware
with the content path modified).  Validation failure is reported as 400
via the `ValidationError` branch of the `catch` block. -/
def createNote (st : Store) (uid : Nat) (inp : CreateNoteInput)
    (newId : Nat) (now : Int) : Except ApiError (Note × Store) :=
  match inp.title, inp.content with
  | some title, some content =>
    if title = "" || content = "" then
      .error (.badRequest "Please provide title and content for the note")
    else
      let tags := inp.tags.getD []
      if !(tags.all fun t => st.tagRecs.any fun r => r.id = t && r.user = uid) then
        .error (.badRequest "One or more invalid tags")
      else
        match inp.folder with
        | some f =>
          if st.folders.any fun r => r.id = f && r.user = uid then
            createNoteDoc st uid inp title content tags newId now
          else .error (.badRequest "Invalid folder")
        | none => createNoteDoc st uid inp title content tags newId now
  | _, _ => .error (.badRequest "Please provide title and content for the note")
where
  /-- The `Note.create` call: build the document, validate, run the
  pre-save hook (content counts as modified on a new document). -/
  createNoteDoc (st : Store) (uid : Nat) (inp : CreateNoteInput)
      (title content : String) (tags : List Nat) (newId : Nat) (now : Int) :
      Except ApiError (Note × Store) :=
    let doc : Note :=
      { id := newId
        title := jsTrim title
        content := jsTrim content
        contentType := inp.contentType.getD "plain"
        user := uid
        folder := inp.folder
        tags := tags
        isPinned := inp.isPinned.getD false
        isArchived := false
        isTrashed := false
        trashedAt := none
        color := inp.color.getD "#ffffff"
        wordCount := 0
        characterCount := 0
        order := 0
        isFavorite := false
        lastViewedAt := none
        viewCount := 0
        createdAt := now
        updatedAt := now }
    if noteValid doc then
      let saved := noteSave doc true now
      .ok (saved, { st with notes := st.notes ++ [saved] })
    else
      .error (.badRequest "validation failed")

/-! ## Query layer (`getNotes`, `searchNotes` and the model's static
finders) -/

/-- Query parameters of `GET /api/notes` (`noteController.js` lines
105–115).  `page`/`limit` arrive as strings and pass through
`parseInt`; we model them as already-parsed integers, `none` when the
parameter is absent (the destructuring defaults `page = 1`,
`limit = 20` apply only to absent parameters).  `folder` uses
`some none` for the literal string `'null'` (the "no folder" sentinel)
and `some (some f)` for a folder id. -/
structure GetNotesParams where
  page : Option Int
  limit : Option Int
  search : Option String
  sortBy : Option String
  sortOrder : Option String
  tag : Option Nat
  folder : Option (Option Nat)
  color : Option String
  favorite : Option String
  deriving Repr, DecidableEq

/-- The Mongo filter built by `getNotes` (`noteController.js` lines
117–150): owner scoping, `isTrashed: false`, `isArchived: false`,
then the optional search / tag / folder / color / favorite criteria. -/
def matchesGetNotes (uid : Nat) (p : GetNotesParams) (n : Note) : Bool :=
  n.user = uid && !n.isTrashed && !n.isArchived &&
  (match p.search with
   | none => true
   | some s => ciContains n.title s || ciContains n.content s) &&
  (match p.tag with
   | none => true
   | some t => n.tags.contains t) &&
  (match p.folder with
   | none => true
   | some f => n.folder = f) &&
  (match p.color with
   | none => true
   | some c => n.color = c) &&
  (if p.favorite = some "true" then n.isFavorite else true)

/-- Numeric sort key for the dynamic `sortOptions[sortBy]` field.
Unmodelled field names compare equal, so the stable merge sort leaves
the store order; no claim depends on the ordering of results. -/
def sortKey (sortBy : String) (n : Note) : Int :=
  match sortBy with
  | "updatedAt" => n.updatedAt
  | "createdAt" => n.createdAt
  | "order" => n.order
  | "viewCount" => (n.viewCount : Int)
  | _ => 0

/-- `sortOptions = { isPinned: -1, [sortBy]: sortOrder }`
(`noteController.js` lines 158–160): pinned notes always first, then
the requested field in the requested direction (`desc` unless the
parameter is exactly `'asc'`). -/
def noteLe (sortBy sortOrder : String) (a b : Note) : Bool :=
  if a.isPinned ≠ b.isPinned then a.isPinned
  else if sortOrder = "asc" then sortKey sortBy a ≤ sortKey sortBy b
  else sortKey sortBy b ≤ sortKey sortBy a

/-- `cursor.limit(l)` in MongoDB: `0` means no limit; a negative value
behaves like `|l|` (single batch). -/
def applyLimit (l : Int) (xs : List Note) : List Note :=
  if l = 0 then xs else xs.take l.natAbs

/-- `(pageNum, limitNum, skip)` as computed by `getNotes`
(`noteController.js` lines 152–155): no clamping is applied to the
parsed values; absent parameters default to 1 and 20. -/
def getNotesPagination (page limit : Option Int) : Int × Int × Int :=
  let pageNum := page.getD 1
  let limitNum := limit.getD 20
  (pageNum, limitNum, (pageNum - 1) * limitNum)

/-- Successful response shape of `getNotes`. -/
structure NotesPage where
  notes : List Note
  total : Nat
  page : Int
  count : Nat
  deriving Repr, DecidableEq

/-- `getNotes` (`noteController.js` lines 102–189): filter, sort
(pinned first), `skip`/`limit` pagination.  MongoDB rejects a negative
skip value ("Skip value must be non-negative"); the driver error lands
in the controller's `catch` block, i.e. HTTP 500. -/
def getNotes (st : Store) (uid : Nat) (p : GetNotesParams) :
    Except ApiError NotesPage :=
  let (pageNum, limitNum, skip) := getNotesPagination p.page p.limit
  let matched := st.notes.filter (matchesGetNotes uid p)
  if skip < 0 then .error .serverError
  else
    let sorted := matched.mergeSort (noteLe (p.sortBy.getD "updatedAt") (p.sortOrder.getD "desc"))
    let pageNotes := applyLimit limitNum (sorted.drop skip.toNat)
    .ok { notes := pageNotes, total := matched.length,
          page := pageNum, count := pageNotes.length }

/-- Query parameters of `GET /api/notes/search`. -/
structure SearchParams where
  q : Option String
  tag : Option Nat
  folder : Option (Option Nat)
  color : Option String
  deriving Repr, DecidableEq

/-- The filter built by `searchNotes` (`noteController.js` lines
482–494): owner scoping, `isTrashed: false`, `isArchived: false`, the
case-insensitive title/content disjunction, and optional tag / folder /
color criteria. -/
def matchesSearch (uid : Nat) (p : SearchParams) (q : String) (n : Note) : Bool :=
  n.user = uid && !n.isTrashed && !n.isArchived &&
  (ciContains n.title q || ciContains n.content q) &&
  (match p.tag with
   | none => true
   | some t => n.tags.contains t) &&
  (match p.folder with
   | none => true
   | some f => n.folder = f) &&
  (match p.color with
   | none => true
   | some c => n.color = c)

/-- `searchNotes` (`noteController.js` lines 471–514): reject an absent
or all-whitespace query with 400, otherwise return every match sorted
pinned-first by `updatedAt` descending. -/
def searchNotes (st : Store) (uid : Nat) (p : SearchParams) :
    Except ApiError (List Note) :=
  match p.q with
  | none => .error (.badRequest "Please provide a search query")
  | some q =>
    if (jsTrim q).length = 0 then
      .error (.badRequest "Please provide a search query")
    else
      .ok ((st.notes.filter (matchesSearch uid p q)).mergeSort (noteLe "updatedAt" "desc"))

/-- `noteSchema.statics.findTrashed` (`Note.js` lines 168–171): the
dedicated trash view — the caller's trashed notes. -/
def findTrashed (st : Store) (uid : Nat) : List Note :=
  (st.notes.filter fun n => n.user = uid && n.isTrashed).mergeSort
    (fun a b => (b.trashedAt.getD 0) ≤ (a.trashedAt.getD 0))

/-- `noteSchema.statics.findArchived` (`Note.js` lines 173–176): the
archive view — archived and not trashed. -/
def findArchived (st : Store) (uid : Nat) : List Note :=
  (st.notes.filter fun n => n.user = uid && n.isArchived && !n.isTrashed).mergeSort
    (fun a b => b.updatedAt ≤ a.updatedAt)

/-! ## Note lifecycle (`Note.js` instance methods and the
controller operations built on them) -/

/-- `noteSchema.methods.moveToTrash` (`Note.js` lines 200–204):
unconditionally sets `isTrashed = true` and stamps `trashedAt` with the
current time, then saves (content unmodified, so the counts are not
recomputed). -/
def moveToTrash (n : Note) (now : Int) : Note :=
  noteSave { n with isTrashed := true, trashedAt := some now } false now

/-- `noteSchema.methods.restore` (`Note.js` lines 206–210): clears
`isTrashed` and `trashedAt`, then saves. -/
def restoreDoc (n : Note) (now : Int) : Note :=
  noteSave { n with isTrashed := false, trashedAt := none } false now

/-- Replace the note with the same id (persisting a saved document). -/
def replaceNote (notes : List Note) (n : Note) : List Note :=
  notes.map fun m => if m.id = n.id then n else m

/-- Outcome of `DELETE /api/notes/:id`. -/
inductive DeleteOutcome where
  /-- permanent deletion: the response carries id and title only. -/
  | permanentlyDeleted (id : Nat) (title : String)
  /-- soft deletion: the response carries the trashed note. -/
  | movedToTrash (n : Note)
  deriving Repr, DecidableEq

/-- `deleteNote` (`noteController.js` lines 355–413): look the note up
by id and owner (whatever its trash state); absent → 404.  With
`?permanent=true` remove the record; otherwise `moveToTrash` — also
when the note is already trashed, in which case `trashedAt` is stamped
anew. -/
def deleteNote (st : Store) (uid noteId : Nat) (permanent : Option String)
    (now : Int) : Except ApiError (DeleteOutcome × Store) :=
  match st.notes.find? (fun n => n.id = noteId && n.user = uid) with
  | none => .error (.notFound "Note not found or you do not have permission to delete it")
  | some note =>
    if permanent = some "true" then
      .ok (.permanentlyDeleted note.id note.title,
           { st with notes := st.notes.filter fun m => m.id ≠ noteId })
    else
      let note' := moveToTrash note now
      .ok (.movedToTrash note', { st with notes := replaceNote st.notes note' })

/-- `restoreNote` (`noteController.js` lines 547–581): look-up requires
`isTrashed: true` as well as ownership; then `note.restore()`. -/
def restoreNote (st : Store) (uid noteId : Nat) (now : Int) :
    Except ApiError (Note × Store) :=
  match st.notes.find? (fun n => n.id = noteId && n.user = uid && n.isTrashed) with
  | none => .error (.notFound "Note not found in trash")
  | some note =>
    let note' := restoreDoc note now
    .ok (note', { st with notes := replaceNote st.notes note' })

/-- Request body of `PUT /api/notes/:id` (absent fields are `none`;
`folder` uses `some none` for the literal string `'null'`). -/
structure UpdateNoteInput where
  title : Option String
  content : Option String
  isPinned : Option Bool
  color : Option String
  tags : Option (List Nat)
  folder : Option (Option Nat)
  contentType : Option String
  isFavorite : Option Bool
  deriving Repr, DecidableEq

/-- All eight candidate update fields are absent. -/
def UpdateNoteInput.isEmpty (i : UpdateNoteInput) : Bool :=
  i.title.isNone && i.content.isNone && i.isPinned.isNone && i.color.isNone &&
  i.tags.isNone && i.folder.isNone && i.contentType.isNone && i.isFavorite.isNone

/-- The document produced by `Note.findByIdAndUpdate(noteId,
updateFields, ...)` (`noteController.js` lines 288–314): each supplied
field replaces the stored value (the controller trims `title` and
`content`); `timestamps: true` refreshes `updatedAt`.  Being a query
update, this does NOT run the `pre('save')` middleware, so `wordCount`
and `characterCount` keep their stored values even when `content`
changes. -/
def applyUpdateFields (n : Note) (i : UpdateNoteInput) (now : Int) : Note :=
  { n with
    title := (i.title.map jsTrim).getD n.title
    content := (i.content.map jsTrim).getD n.content
    isPinned := i.isPinned.getD n.isPinned
    color := i.color.getD n.color
    tags := i.tags.getD n.tags
    folder := i.folder.getD n.folder
    contentType := i.contentType.getD n.contentType
    isFavorite := i.isFavorite.getD n.isFavorite
    updatedAt := now }

/-- `updateNote` (`noteController.js` lines 247–348): find the active
(non-trashed) owned note, validate supplied tags/folder against
ownership, reject an empty update set, then `findByIdAndUpdate` with
`runValidators: true` (validators run on the updated paths, but save
middleware does not). -/
def updateNote (st : Store) (uid noteId : Nat) (i : UpdateNoteInput)
    (now : Int) : Except ApiError (Note × Store) :=
  match st.notes.find? (fun n => n.id = noteId && n.user = uid && !n.isTrashed) with
  | none => .error (.notFound "Note not found or you do not have permission to update it")
  | some note =>
    let tagsBad :=
      match i.tags with
      | some ts => ts ≠ [] && !(ts.all fun t => st.tagRecs.any fun r => r.id = t && r.user = uid)
      | none => false
    if tagsBad then .error (.badRequest "One or more invalid tags")
    else
      let folderBad :=
        match i.folder with
        | some (some f) => !(st.folders.any fun r => r.id = f && r.user = uid)
        | _ => false
      if folderBad then .error (.badRequest "Invalid folder")
      else if i.isEmpty then
        .error (.badRequest "Please provide at least one field to update")
      else
        let note' := applyUpdateFields note i now
        if noteValid note' then
          .ok (note', { st with notes := replaceNote st.notes note' })
        else .error (.badRequest "validation failed")

/-! ## Tags (`src/backend/controllers/tagController.js`)

`createTag` checks for duplicates with
`name: { $regex: new RegExp('^' + name + '$', 'i') }` — the raw
request name is spliced into a regex pattern.  We model the fragment of
regex syntax such patterns can exercise: plain characters match
literally (case-insensitively, because of the `i` flag) and a `+` after
a character is the one-or-more quantifier.  Any other metacharacter is
mapped to a parse failure, modelling `new RegExp` throwing (a leading
quantifier does throw "nothing to repeat"; for the few metacharacter
combinations where JS would accept the pattern with richer semantics,
no theorem below relies on the behaviour). -/

/-- A token of the compiled pattern `^name$`. -/
inductive RTok where
  /-- a character matched literally -/
  | lit (c : Char)
  /-- `c+`: one or more occurrences of the character -/
  | plus (c : Char)
  deriving Repr, DecidableEq

/-- Characters with a special meaning inside a JS regex pattern. -/
def isRegexMeta (c : Char) : Bool :=
  c = '\\' || c = '^' || c = '$' || c = '.' || c = '|' || c = '?' ||
  c = '*' || c = '+' || c = '(' || c = ')' || c = '[' || c = ']' ||
  c = '\x7b' || c = '\x7d'

/-- Compile the spliced tag name into tokens (`none` = the `RegExp`
constructor rejects the pattern, or it leaves the modelled fragment). -/
def parseTagRegex : List Char → Option (List RTok)
  | [] => some []
  | [c] => if isRegexMeta c then none else some [RTok.lit c]
  | c :: d :: rest =>
    if isRegexMeta c then none
    else if d = '+' then (parseTagRegex rest).map (RTok.plus c :: ·)
    else (parseTagRegex (d :: rest)).map (RTok.lit c :: ·)

/-- Case-insensitive character match (the `i` flag). -/
def ciEqChar (c x : Char) : Bool :=
  c.toLower == x.toLower

/-- Anchored match of the compiled pattern against a stored name
(the pattern is `^...$`, so the whole string must match). -/
def matchToks : List RTok → List Char → Bool
  | [], [] => true
  | [], _ :: _ => false
  | .lit _ :: _, [] => false
  | .lit c :: ts, x :: xs => ciEqChar c x && matchToks ts xs
  | .plus _ :: _, [] => false
  | .plus c :: ts, x :: xs =>
    ciEqChar c x && (matchToks ts xs || matchToks (.plus c :: ts) xs)

/-- `createTag` (`tagController.js` lines 52–86): regex duplicate
pre-check scoped to the owner, then `Tag.create` (schema: required
trimmed name of at most 30 characters, colour format, and the unique
compound index `{ name: 1, user: 1 }`).  A thrown error — `RegExp`
construction failure, `ValidationError`, or the index's duplicate-key
error — reaches the controller's `catch`, i.e. HTTP 500. -/
def createTag (tags : List TagRec) (uid : Nat) (name : String)
    (color : Option String) (newId : Nat) : Except ApiError (TagRec × List TagRec) :=
  match parseTagRegex name.toList with
  | none => .error .serverError
  | some toks =>
    if tags.any (fun t => t.user = uid && matchToks toks t.name.toList) then
      .error (.badRequest "Tag with this name already exists")
    else
      let trimmed := jsTrim name
      let colorVal := color.getD "#3b82f6"
      if trimmed.length = 0 || 30 < trimmed.length || !colorOk colorVal then
        .error .serverError
      else if tags.any (fun t => t.user = uid && t.name = trimmed) then
        .error .serverError
      else
        let t : TagRec := { id := newId, name := trimmed, color := colorVal, user := uid }
        .ok (t, tags ++ [t])

/-! ## Sharing (`src/unnamed/part_002` controller,
`src/unnamed/part_005` model)

`sharedNoteSchema` declares exactly the paths `note`, `owner`,
`sharedWith` (all three `required: true`), `permission`, `sharedAt`
and `expiresAt`.  In particular it declares neither a `shareToken` nor
a `viewCount` path, although the share controller uses both. -/

/-- A `SharedNote` document: exactly the paths of `sharedNoteSchema`. -/
structure SharedNote where
  id : Nat
  note : Nat
  owner : Nat
  sharedWith : Nat
  permission : String
  sharedAt : Int
  expiresAt : Option Int
  deriving Repr, DecidableEq

/-- The fields the share controller passes to `SharedNote.create`.
`shareToken` is not a schema path, so the strict schema discards it. -/
structure SharedNoteInput where
  note : Option Nat
  owner : Option Nat
  sharedWith : Option Nat
  permission : String
  shareToken : Option String
  expiresAt : Option Int
  deriving Repr, DecidableEq

/-- `SharedNote.create`: required-path validation (`required: true`
fails on `null`), the `permission` enum, and strict-mode stripping of
the non-schema `shareToken` input.  `.error` is a `ValidationError`. -/
def sharedNoteCreate (inp : SharedNoteInput) (newId : Nat) (now : Int) :
    Except Unit SharedNote :=
  match inp.note, inp.owner, inp.sharedWith with
  | some n, some o, some sw =>
    if inp.permission = "read" || inp.permission = "edit" then
      .ok { id := newId, note := n, owner := o, sharedWith := sw,
            permission := inp.permission, sharedAt := now, expiresAt := inp.expiresAt }
    else .error ()
  | _, _, _ => .error ()

/-- `crypto.randomBytes(32)` (`part_002` line 122): the share token is
built from 32 random bytes, i.e. 256 bits of entropy, hex-encoded. -/
def shareTokenRandomBytes : Nat := 32

/-- `generateShareLink` (`part_002` lines 104–148): find the owned,
non-trashed note, generate a token, `SharedNote.create` with
`sharedWith: null`, and answer with the constructed URL.  The creation
always throws a `ValidationError` — `sharedWith` is `required: true` in
`sharedNoteSchema` and `null` fails that validator — which the `catch`
block reports as HTTP 500.  The token (64 hex characters) is passed in
as a parameter since it is random. -/
def generateShareLink (notes : List Note) (shares : List SharedNote)
    (uid noteId : Nat) (token : String) (expiresAt : Option Int)
    (newId : Nat) (now : Int) : Except ApiError (String × List SharedNote) :=
  match notes.find? (fun n => n.id = noteId && n.user = uid && !n.isTrashed) with
  | none => .error (.notFound "Note not found")
  | some _ =>
    let inp : SharedNoteInput :=
      { note := some noteId, owner := some uid, sharedWith := none,
        permission := "read", shareToken := some token, expiresAt := expiresAt }
    match sharedNoteCreate inp newId now with
    | .error _ => .error .serverError
    | .ok doc => .ok ("http://localhost:5173/shared/" ++ token, shares ++ [doc])

/-- The filter `{ shareToken: req.params.token }` of
`getSharedNoteByToken` (`part_002` line 157): `shareToken` is not a
path of `sharedNoteSchema`, so no stored document carries a value at
that path, and a MongoDB equality filter comparing a missing path to a
string matches no document. -/
def sharedNoteTokenFilter (_ : SharedNote) (_ : String) : Bool :=
  false

/-- `getSharedNoteByToken` (`part_002` lines 155–198): look the share
up by token; absent → 404.  A found share would be refused with 403
once expired (`expiresAt < now`), otherwise returned after
`share.viewCount += 1` — but `viewCount` is not a schema path, so that
assignment is a plain JS property the following `save()` does not
persist; the stored document is unchanged.  The function returns the
response together with the share store after the call. -/
def getSharedNoteByToken (shares : List SharedNote) (token : String)
    (now : Int) : Except ApiError SharedNote × List SharedNote :=
  match shares.find? (fun s => sharedNoteTokenFilter s token) with
  | none => (.error (.notFound "Shared note not found"), shares)
  | some share =>
    match share.expiresAt with
    | some e =>
      if e < now then (.error (.forbidden "This share link has expired"), shares)
      else (.ok share, shares)
    | none => (.ok share, shares)

/-! ## Reminders (`src/backend/controllers/reminderController.js`,
`src/backend/models/Reminder.js`)

`reminderSchema` declares the paths `note` (`required: true`), `user`,
`reminderDate`, `message`, `isRecurring`, `recurringType` (enum
daily/weekly/monthly/yearly, default `null`) and `isCompleted`
(default `false`), plus `notifiedAt`.  The controller instead writes
`title`, `recurringPattern`, `notificationMethods` and `status`, none
of which are schema paths. -/

/-- A `Reminder` document: exactly the paths of `reminderSchema`. -/
structure Reminder where
  id : Nat
  note : Nat
  user : Nat
  reminderDate : Int
  message : Option String
  isRecurring : Bool
  recurringType : Option String
  isCompleted : Bool
  notifiedAt : Option Int
  deriving Repr, DecidableEq

/-- `reminder.recurringPattern` as read by `completeReminder`
(`reminderController.js` line 264): `recurringPattern` is not a path of
`reminderSchema` (the schema's recurrence field is named
`recurringType`, and `Reminder.create` discards the non-schema
`recurringPattern` input under strict mode), so the read yields
`undefined` on every document loaded from the store. -/
def Reminder.recurringPatternField (_ : Reminder) : Option String :=
  none

/-- One millisecond-count per civil day (the embedding works in UTC). -/
def msPerDay : Int := 86400000

/-- Civil date of a day number (days since 1970-01-01), as
`(year, month, day)` with `month ∈ [1,12]`. -/
def civilFromDays (z0 : Int) : Int × Int × Int :=
  let z := z0 + 719468
  let era := (if 0 ≤ z then z else z - 146096) / 146097
  let doe := z - era * 146097
  let yoe := (doe - doe / 1460 + doe / 36524 - doe / 146096) / 365
  let y := yoe + era * 400
  let doy := doe - (365 * yoe + yoe / 4 - yoe / 100)
  let mp := (5 * doy + 2) / 153
  let d := doy - (153 * mp + 2) / 5 + 1
  let m := if mp < 10 then mp + 3 else mp - 9
  (if m ≤ 2 then y + 1 else y, m, d)

/-- Day number of a civil `(year, month, day)`; `day` may overflow the
month's length, which normalises exactly as a JS `Date` does. -/
def daysFromCivil (y0 m d : Int) : Int :=
  let y := if m ≤ 2 then y0 - 1 else y0
  let era := (if 0 ≤ y then y else y - 399) / 400
  let yoe := y - era * 400
  let mp := if 2 < m then m - 3 else m + 9
  let doy := (153 * mp + 2) / 5 + d - 1
  let doe := yoe * 365 + yoe / 4 - yoe / 100 + doy
  era * 146097 + doe - 719468

/-- `date.setMonth(getMonth() + dm)` / `setFullYear(getFullYear() + dy)`
on a millisecond timestamp, preserving the time of day (UTC model). -/
def addCalendar (cur dMonths dYears : Int) : Int :=
  let days := cur.ediv msPerDay
  let tod := cur.emod msPerDay
  let (y, m, d) := civilFromDays days
  let mShift := m + dMonths
  let yNorm := if 12 < mShift then y + dYears + 1 else y + dYears
  let mNorm := if 12 < mShift then mShift - 12 else mShift
  daysFromCivil yNorm mNorm d * msPerDay + tod

/-- `calculateNextDate` (`reminderController.js` lines 388–412):
daily/weekly/biweekly advance by whole days, monthly/yearly by calendar
arithmetic; an unknown pattern yields `null`. -/
def calculateNextDate (cur : Int) (pattern : String) : Option Int :=
  match pattern with
  | "daily" => some (cur + msPerDay)
  | "weekly" => some (cur + 7 * msPerDay)
  | "biweekly" => some (cur + 14 * msPerDay)
  | "monthly" => some (addCalendar cur 1 0)
  | "yearly" => some (addCalendar cur 0 1)
  | _ => none

/-- Request body of `POST /api/reminders` as the controller reads it.
`title`, `recurringPattern` and `notificationMethods` are not schema
paths — the strict schema discards them on create. -/
structure CreateReminderInput where
  noteId : Option Nat
  title : Option String
  reminderDate : Int
  isRecurring : Option Bool
  recurringPattern : Option String
  notificationMethods : Option (List String)
  deriving Repr, DecidableEq

/-- `createReminder` (`reminderController.js` lines 93–147): validate
the referenced note (owned, non-trashed) when given, insist the due
date is not in the past, then `Reminder.create`.  The document keeps
`recurringType = null` (the controller never sets that path) and
`isCompleted = false`; a missing `noteId` makes the required `note`
path fail validation, which the `catch` reports as HTTP 500. -/
def createReminder (notes : List Note) (rems : List Reminder) (uid : Nat)
    (inp : CreateReminderInput) (newId : Nat) (now : Int) :
    Except ApiError (Reminder × List Reminder) :=
  let noteOk :=
    match inp.noteId with
    | some nid => notes.any fun n => n.id = nid && n.user = uid && !n.isTrashed
    | none => true
  if !noteOk then .error (.notFound "Note not found")
  else if inp.reminderDate < now then
    .error (.badRequest "Reminder date must be in the future")
  else
    match inp.noteId with
    | none => .error .serverError
    | some nid =>
      let doc : Reminder :=
        { id := newId, note := nid, user := uid,
          reminderDate := inp.reminderDate, message := none,
          isRecurring := inp.isRecurring.getD false,
          recurringType := none, isCompleted := false, notifiedAt := none }
      .ok (doc, rems ++ [doc])

/-- `completeReminder` (`reminderController.js` lines 246–296): find
the owned reminder; absent → 404.  `reminder.status = 'completed'`
assigns a non-schema path, so the subsequent `save()` persists the
document unchanged (the schema's `isCompleted` flag is never touched).
The recurrence branch tests `reminder.isRecurring &&
reminder.recurringPattern`; the latter read is `undefined` (see
`Reminder.recurringPatternField`), so no successor is ever created. -/
def completeReminder (rems : List Reminder) (uid rid : Nat)
    (newId : Nat) : Except ApiError Reminder × List Reminder :=
  match rems.find? (fun r => r.id = rid && r.user = uid) with
  | none => (.error (.notFound "Reminder not found"), rems)
  | some r =>
    let pat := r.recurringPatternField
    let rems' :=
      if r.isRecurring && pat.isSome then
        match calculateNextDate r.reminderDate (pat.getD "") with
        | some nd =>
          rems ++ [{ id := newId, note := r.note, user := uid,
                     reminderDate := nd, message := none, isRecurring := true,
                     recurringType := none, isCompleted := false, notifiedAt := none }]
        | none => rems
      else rems
    (.ok r, rems')

/-! ## General lemmas -/

/-- Dropping a prefix of `p`-elements twice is the same as doing it once. -/
theorem dropWhile_dropWhile_self {α : Type} (p : α → Bool) (l : List α) :
    (l.dropWhile p).dropWhile p = l.dropWhile p := by
  cases h : l.dropWhile p with
  | nil => simp
  | cons c cs =>
    have h2 := List.head?_dropWhile_not p l
    rw [h] at h2
    simp only [List.head?_cons] at h2
    simp [List.dropWhile_cons, h2]

/-- Trimming is idempotent. -/
theorem trimL_idem (l : List Char) : trimL (trimL l) = trimL l := by
  unfold trimL
  set p := isJsWs with hp
  set a := l.dropWhile p with ha
  set b := a.reverse.dropWhile p with hb
  have h1 : b.reverse.dropWhile p = b.reverse := by
    cases hc : b.reverse with
    | nil => simp
    | cons c cs =>
      have hsplit : a.reverse.takeWhile p ++ b = a.reverse := by
        rw [hb]; exact List.takeWhile_append_dropWhile ..
      have ha2 : a = b.reverse ++ (a.reverse.takeWhile p).reverse := by
        have h3 := congrArg List.reverse hsplit
        simpa [List.reverse_append] using h3.symm
      have haeq : a = c :: (cs ++ (a.reverse.takeWhile p).reverse) := by
        conv_lhs => rw [ha2, hc]
        simp
      have h2 := List.head?_dropWhile_not p l
      rw [← ha, haeq] at h2
      simp only [List.head?_cons] at h2
      simp [List.dropWhile_cons, h2]
  rw [h1, List.reverse_reverse]
  have h4 : b.dropWhile p = b := by
    rw [hb]; exact dropWhile_dropWhile_self ..
  rw [h4]

/-- `jsTrim` is idempotent. -/
theorem jsTrim_idem (s : String) : jsTrim (jsTrim s) = jsTrim s := by
  show String.mk (trimL (trimL s.toList)) = String.mk (trimL s.toList)
  exact congrArg String.mk (trimL_idem s.toList)

/-- A false boolean is not true. -/
theorem bool_ne_true {b : Bool} (h : b = false) : ¬b = true := by
  simp [h]

/-- `find?` with an unsatisfiable predicate finds nothing. -/
theorem find?_const_false {α : Type} (l : List α) :
    l.find? (fun _ => false) = none := by
  induction l with
  | nil => rfl
  | cons c cs ih => simp [List.find?_cons, ih]

/-- Every member of an `applyLimit` page is a member of the input. -/
theorem mem_of_mem_applyLimit {n : Note} {l : Int} {xs : List Note}
    (h : n ∈ applyLimit l xs) : n ∈ xs := by
  unfold applyLimit at h
  split at h
  · exact h
  · exact List.mem_of_mem_take h

/-! ## Sample data (used by witnesses and counterexamples) -/

/-- A store with no records. -/
def emptyStore : Store := { notes := [], tagRecs := [], folders := [] }

/-- The spec's walk-through input: title "Shopping", content
"milk eggs bread". -/
def cIn : CreateNoteInput :=
  { title := some "Shopping", content := some "milk eggs bread",
    isPinned := none, color := none, tags := none, folder := none,
    contentType := none }

/-- The note `createNote emptyStore 1 cIn 1 0` persists. -/
def note1 : Note :=
  { id := 1, title := "Shopping", content := "milk eggs bread",
    contentType := "plain", user := 1, folder := none, tags := [],
    isPinned := false, isArchived := false, isTrashed := false,
    trashedAt := none, color := "#ffffff", wordCount := 3,
    characterCount := 15, order := 0, isFavorite := false,
    lastViewedAt := none, viewCount := 0, createdAt := 0, updatedAt := 0 }

/-- A store holding just `note1`. -/
def st1 : Store := { notes := [note1], tagRecs := [], folders := [] }

/-! ## C1 — derived counts on creation -/

/-- Field values of a document persisted by the `Note.create` step of
`createNote`: the stored content is the trimmed input and the pre-save
middleware filled both counts from it. -/
theorem createNoteDoc_fields (st : Store) (uid : Nat) (inp : CreateNoteInput)
    (title content : String) (tags : List Nat) (newId : Nat) (now : Int)
    (n : Note) (st' : Store)
    (h : createNote.createNoteDoc st uid inp title content tags newId now = .ok (n, st')) :
    n.content = jsTrim content ∧
    n.characterCount = (jsTrim content).length ∧
    n.wordCount = jsWordCount (jsTrim content) := by
  unfold createNote.createNoteDoc at h
  dsimp only at h
  split at h
  · simp only [Except.ok.injEq, Prod.mk.injEq] at h
    obtain ⟨hn, _⟩ := h
    subst hn
    exact ⟨rfl, rfl, rfl⟩
  · exact absurd h (by simp)

/-- C1: for every note created via `createNote` with content `C`, the
persisted note's `characterCount` equals the length of the stored
content and its `wordCount` equals the number of non-empty
whitespace-separated tokens of `C.trim()` (the stored content being
`C.trim()`). -/
theorem createNote_counts (st : Store) (uid : Nat) (inp : CreateNoteInput)
    (newId : Nat) (now : Int) (C : String) (n : Note) (st' : Store)
    (hC : inp.content = some C)
    (h : createNote st uid inp newId now = .ok (n, st')) :
    n.characterCount = n.content.length ∧
    n.wordCount = (wsTokens (jsTrim C).toList).length ∧
    n.content = jsTrim C := by
  obtain ⟨t, c, pin, col, tg, fld, ct⟩ := inp
  simp only [CreateNoteInput.content] at hC
  subst hC
  cases t with
  | none => simp [createNote] at h
  | some title =>
    unfold createNote at h
    dsimp only at h
    have hfin : ∀ tags,
        createNote.createNoteDoc st uid
          { title := some title, content := some C, isPinned := pin,
            color := col, tags := tg, folder := fld, contentType := ct }
          title C tags newId now = .ok (n, st') →
        n.characterCount = n.content.length ∧
        n.wordCount = (wsTokens (jsTrim C).toList).length ∧
        n.content = jsTrim C := by
      intro tags hdoc
      obtain ⟨hc, hcc, hwc⟩ := createNoteDoc_fields _ _ _ _ _ _ _ _ _ _ hdoc
      refine ⟨?_, ?_, hc⟩
      · rw [hcc, hc]
      · rw [hwc]
        unfold jsWordCount
        rw [jsTrim_idem]
    split at h
    · exact absurd h (by simp)
    · split at h
      · exact absurd h (by simp)
      · split at h
        · split at h
          · exact hfin _ h
          · exact absurd h (by simp)
        · exact hfin _ h

/-- C1 witness: the spec's walk-through — content "milk eggs bread"
gives `wordCount = 3`, `characterCount = 15`. -/
theorem createNote_counts_witness :
    note1.characterCount = note1.content.length ∧
    note1.wordCount = (wsTokens (jsTrim "milk eggs bread").toList).length ∧
    note1.content = jsTrim "milk eggs bread" :=
  createNote_counts emptyStore 1 cIn 1 0 "milk eggs bread" note1 st1
    rfl rfl

/-! ## C2 — counts on update -/

/-- Request body updating only the content, to "hi". -/
def updIn : UpdateNoteInput :=
  { title := none, content := some "hi", isPinned := none, color := none,
    tags := none, folder := none, contentType := none, isFavorite := none }

/-- `note1` after `updateNote` replaced its content with "hi" at time 5:
the counts still describe the old content. -/
def note2 : Note := { note1 with content := "hi", updatedAt := 5 }

/-- The store after the update. -/
def st2 : Store := { notes := [note2], tagRecs := [], folders := [] }

/-- C2 (failing input): updating `note1`'s content from
"milk eggs bread" to "hi" succeeds but leaves `wordCount = 3` and
`characterCount = 15` — the values of the old content — because
`findByIdAndUpdate` bypasses the `pre('save')` recount middleware.
The new content has 1 token and length 2. -/
theorem updateNote_stale_counts :
    updateNote st1 1 1 updIn 5 = .ok (note2, st2) ∧
    note2.content = "hi" ∧
    note2.wordCount = 3 ∧
    note2.characterCount = 15 ∧
    (wsTokens (jsTrim note2.content).toList).length = 1 ∧
    (jsTrim note2.content).length = 2 :=
  ⟨rfl, rfl, rfl, rfl, rfl, rfl⟩

/-! ## C3 — trashed/archived notes are excluded from browse and search -/

/-- Every note of a `getNotes` result page comes from the store and
satisfies the built filter. -/
theorem getNotes_mem (st : Store) (uid : Nat) (p : GetNotesParams)
    (res : NotesPage) (n : Note) (h : getNotes st uid p = .ok res)
    (hm : n ∈ res.notes) : n ∈ st.notes ∧ matchesGetNotes uid p n = true := by
  unfold getNotes at h
  split at h
  dsimp only at h
  split at h
  · exact absurd h (by simp)
  · simp only [Except.ok.injEq] at h
    subst h
    have h1 := mem_of_mem_applyLimit hm
    have h2 := List.mem_of_mem_drop h1
    have h3 := List.mem_mergeSort.1 h2
    exact List.mem_filter.1 h3

/-- Every note of a `searchNotes` result comes from the store and
satisfies the built filter. -/
theorem searchNotes_mem (st : Store) (uid : Nat) (p : SearchParams)
    (res : List Note) (n : Note) (q : String) (hq : p.q = some q)
    (h : searchNotes st uid p = .ok res) (hm : n ∈ res) :
    n ∈ st.notes ∧ matchesSearch uid p q n = true := by
  unfold searchNotes at h
  rw [hq] at h
  dsimp only at h
  split at h
  · exact absurd h (by simp)
  · simp only [Except.ok.injEq] at h
    subst h
    have h3 := List.mem_mergeSort.1 hm
    exact List.mem_filter.1 h3

/-- A note passing the `getNotes` filter is neither trashed nor
archived. -/
theorem matchesGetNotes_flags (uid : Nat) (p : GetNotesParams) (n : Note)
    (h : matchesGetNotes uid p n = true) :
    n.isTrashed = false ∧ n.isArchived = false := by
  constructor
  · by_contra hne
    have htr : n.isTrashed = true := by revert hne; cases n.isTrashed <;> simp
    simp [matchesGetNotes, htr] at h
  · by_contra hne
    have har : n.isArchived = true := by revert hne; cases n.isArchived <;> simp
    simp [matchesGetNotes, har] at h

/-- A note passing the `searchNotes` filter is neither trashed nor
archived. -/
theorem matchesSearch_flags (uid : Nat) (p : SearchParams) (q : String)
    (n : Note) (h : matchesSearch uid p q n = true) :
    n.isTrashed = false ∧ n.isArchived = false := by
  constructor
  · by_contra hne
    have htr : n.isTrashed = true := by revert hne; cases n.isTrashed <;> simp
    simp [matchesSearch, htr] at h
  · by_contra hne
    have har : n.isArchived = true := by revert hne; cases n.isArchived <;> simp
    simp [matchesSearch, har] at h

/-- C3: no trashed and no archived note ever appears in a `getNotes`
page or a `searchNotes` result, for any owner and any filter/search
parameters; trashed notes appear in the dedicated trash view
(`findTrashed`), which holds exactly the caller's trashed notes. -/
theorem views_exclude_trashed_archived :
    (∀ st uid p res n, getNotes st uid p = .ok res → n ∈ res.notes →
        n.isTrashed = false ∧ n.isArchived = false) ∧
    (∀ st uid p res n, searchNotes st uid p = .ok res → n ∈ res →
        n.isTrashed = false ∧ n.isArchived = false) ∧
    (∀ st uid n, n ∈ findTrashed st uid ↔
        n ∈ st.notes ∧ n.user = uid ∧ n.isTrashed = true) := by
  refine ⟨?_, ?_, ?_⟩
  · intro st uid p res n h hm
    exact matchesGetNotes_flags uid p n (getNotes_mem st uid p res n h hm).2
  · intro st uid p res n h hm
    obtain ⟨q, hq⟩ : ∃ q, p.q = some q := by
      cases hq : p.q with
      | none => unfold searchNotes at h; rw [hq] at h; exact absurd h (by simp)
      | some q => exact ⟨q, rfl⟩
    exact matchesSearch_flags uid p q n (searchNotes_mem st uid p res n q hq h hm).2
  · intro st uid n
    unfold findTrashed
    rw [List.mem_mergeSort, List.mem_filter]
    simp only [Bool.and_eq_true, decide_eq_true_eq]

/-- Query-parameter record with every optional parameter absent. -/
def defaultGNP : GetNotesParams :=
  { page := none, limit := none, search := none, sortBy := none,
    sortOrder := none, tag := none, folder := none, color := none,
    favorite := none }

/-- The page `getNotes st1 1 defaultGNP` answers. -/
def page1 : NotesPage := { notes := [note1], total := 1, page := 1, count := 1 }

/-- Search parameters querying for "milk". -/
def searchP : SearchParams :=
  { q := some "milk", tag := none, folder := none, color := none }

/-- An archived note that was then trashed (owned by user 1). -/
def note3 : Note :=
  { note1 with id := 3, isArchived := true, isTrashed := true,
               trashedAt := some 1000 }

/-- A store holding just `note3`. -/
def stTrash : Store := { notes := [note3], tagRecs := [], folders := [] }

/-- Concrete evaluation of the browse view on `st1`. -/
theorem getNotes_st1_eval : getNotes st1 1 defaultGNP = .ok page1 := by
  rw [show getNotes st1 1 defaultGNP =
        .ok { notes := applyLimit 20 (List.drop 0 ([note1].mergeSort (noteLe "updatedAt" "desc"))),
              total := 1, page := 1,
              count := (applyLimit 20 (List.drop 0 ([note1].mergeSort (noteLe "updatedAt" "desc")))).length }
      from rfl]
  rw [List.mergeSort_singleton]
  rfl

/-- Concrete evaluation of search on `st1`. -/
theorem searchNotes_st1_eval : searchNotes st1 1 searchP = .ok [note1] := by
  rw [show searchNotes st1 1 searchP =
        .ok ([note1].mergeSort (noteLe "updatedAt" "desc")) from rfl]
  rw [List.mergeSort_singleton]

/-- C3 witness: concrete browse, search and trash-view runs. -/
theorem views_exclude_witness :
    ((note1.isTrashed = false ∧ note1.isArchived = false) ∧
     (note1.isTrashed = false ∧ note1.isArchived = false)) ∧
    note3 ∈ findTrashed stTrash 1 :=
  ⟨⟨views_exclude_trashed_archived.1 st1 1 defaultGNP page1 note1
      getNotes_st1_eval (by decide),
    views_exclude_trashed_archived.2.1 st1 1 searchP [note1] note1
      searchNotes_st1_eval (by decide)⟩,
   (views_exclude_trashed_archived.2.2 stTrash 1 note3).mpr
     ⟨by decide, rfl, rfl⟩⟩

/-! ## C4 — soft delete on an already-trashed note -/

/-- Equality on every `Note` field other than `isTrashed`, `trashedAt`
and the store-managed `updatedAt`. -/
def sameExceptTrashFields (a b : Note) : Prop :=
  a.id = b.id ∧ a.title = b.title ∧ a.content = b.content ∧
  a.contentType = b.contentType ∧ a.user = b.user ∧ a.folder = b.folder ∧
  a.tags = b.tags ∧ a.isPinned = b.isPinned ∧ a.isArchived = b.isArchived ∧
  a.color = b.color ∧ a.wordCount = b.wordCount ∧
  a.characterCount = b.characterCount ∧ a.order = b.order ∧
  a.isFavorite = b.isFavorite ∧ a.lastViewedAt = b.lastViewedAt ∧
  a.viewCount = b.viewCount ∧ a.createdAt = b.createdAt

/-- `note3` after a second soft delete at time 2000: same record except
`trashedAt` (and `updatedAt`) now read 2000. -/
def note3after : Note := { note3 with trashedAt := some 2000, updatedAt := 2000 }

/-- C4 counterexample: soft-deleting the already-trashed `note3`
(trashed at 1000) at time 2000 succeeds but does NOT leave the record
unchanged — `trashedAt` is re-stamped to 2000, so the call is not a
no-op. -/
theorem softDelete_not_noop :
    deleteNote stTrash 1 3 none 2000 =
      .ok (.movedToTrash note3after,
           { notes := [note3after], tagRecs := [], folders := [] }) ∧
    note3.isTrashed = true ∧
    note3.trashedAt = some 1000 ∧
    note3after.trashedAt = some 2000 ∧
    note3after ≠ note3 :=
  ⟨rfl, rfl, rfl, rfl, by decide⟩

/-- C4 (amended): soft delete on an owned, already-trashed note
succeeds without error, keeps `isTrashed = true` and every other field
except the trash timestamp, but re-stamps `trashedAt` to the time of
the call instead of leaving the record untouched. -/
theorem softDelete_retrash (st : Store) (uid nid : Nat) (now : Int) (n : Note)
    (hfind : st.notes.find? (fun m => m.id = nid && m.user = uid) = some n)
    (_htr : n.isTrashed = true) :
    deleteNote st uid nid none now =
      .ok (.movedToTrash (moveToTrash n now),
           { st with notes := replaceNote st.notes (moveToTrash n now) }) ∧
    (moveToTrash n now).isTrashed = true ∧
    (moveToTrash n now).trashedAt = some now ∧
    sameExceptTrashFields (moveToTrash n now) n := by
  unfold deleteNote
  rw [hfind]
  exact ⟨rfl, rfl, rfl, rfl, rfl, rfl, rfl, rfl, rfl, rfl, rfl, rfl, rfl,
         rfl, rfl, rfl, rfl, rfl, rfl, rfl⟩

/-- C4 witness: the amended statement at the concrete store. -/
theorem softDelete_retrash_witness :
    deleteNote stTrash 1 3 none 2000 =
      .ok (.movedToTrash (moveToTrash note3 2000),
           { stTrash with notes := replaceNote stTrash.notes (moveToTrash note3 2000) }) ∧
    (moveToTrash note3 2000).isTrashed = true ∧
    (moveToTrash note3 2000).trashedAt = some 2000 ∧
    sameExceptTrashFields (moveToTrash note3 2000) note3 :=
  softDelete_retrash stTrash 1 3 2000 note3 rfl rfl

/-! ## C5 — public share-link generation -/

/-- A 64-hex-character token (the shape `crypto.randomBytes(32)
.toString('hex')` produces). -/
def tok0 : String :=
  "0123456789abcdef0123456789abcdef0123456789abcdef0123456789abcdef"

/-- C5 (failing input): for the owned, non-trashed `note1`,
`generateShareLink` does NOT succeed: `sharedNoteSchema` marks
`sharedWith` as `required: true` and declares no `shareToken` path, so
the `SharedNote.create` call with `sharedWith: null` throws a
`ValidationError` and the endpoint answers HTTP 500, creating nothing.
(The generated token itself does carry 32 random bytes = 256 bits.) -/
theorem generateShareLink_always_500 :
    generateShareLink [note1] [] 1 1 tok0 none 1 0 = .error .serverError ∧
    8 * shareTokenRandomBytes = 256 :=
  ⟨rfl, rfl⟩

/-! ## C6 — fetching a shared note by token -/

/-- C6: fetching by share token always answers 404 and leaves the
share store untouched, whatever the store, the token and the clock:
no `SharedNote` document carries a `shareToken` path (the schema does
not declare one), so the token filter never matches; the expiry check
and the view-counter increment are unreachable (and `viewCount` is not
a schema path either). -/
theorem getSharedNoteByToken_always_404 (shares : List SharedNote)
    (token : String) (now : Int) :
    getSharedNoteByToken shares token now =
      (.error (.notFound "Shared note not found"), shares) := by
  unfold getSharedNoteByToken
  rw [show List.find? (fun s => sharedNoteTokenFilter s token) shares = none from
       find?_const_false shares]

/-! ## C7 — completing a recurring reminder -/

/-- Request body creating a daily recurring reminder on `note1`, due at
`86400000` (one day past the epoch). -/
def remIn : CreateReminderInput :=
  { noteId := some 1, title := some "Water plants", reminderDate := 86400000,
    isRecurring := some true, recurringPattern := some "daily",
    notificationMethods := none }

/-- The document `createReminder` persists for `remIn`: note the
recurrence pattern is gone (`recurringType` keeps its default `null`)
because `recurringPattern` is not a schema path. -/
def rem1 : Reminder :=
  { id := 1, note := 1, user := 1, reminderDate := 86400000, message := none,
    isRecurring := true, recurringType := none, isCompleted := false,
    notifiedAt := none }

/-- C7 (failing input): completing the daily recurring reminder `rem1`
creates NO successor and does not mark the original completed — the
reminder store is returned unchanged (`isCompleted` still `false`,
still exactly one record) although `calculateNextDate` would have
produced the due date one day later had the recurrence branch been
reachable. -/
theorem completeReminder_no_successor :
    createReminder [note1] [] 1 remIn 1 0 = .ok (rem1, [rem1]) ∧
    rem1.isRecurring = true ∧
    completeReminder [rem1] 1 1 2 = (.ok rem1, [rem1]) ∧
    rem1.isCompleted = false ∧
    calculateNextDate rem1.reminderDate "daily" =
      some (rem1.reminderDate + msPerDay) :=
  ⟨rfl, rfl, rfl, rfl, rfl⟩

/-! ## C8 — pagination of invalid page/pageSize parameters -/

/-- Browse request with the explicit parameter `page=0`. -/
def page0Params : GetNotesParams := { defaultGNP with page := some 0 }

/-- C8 counterexample: `page=0` is NOT clamped to the default — the
code computes `pageNum = 0` and `skip = -20` (not `1` and `0`), and the
request errors with HTTP 500 (MongoDB rejects the negative skip)
instead of returning a normal result page. -/
theorem pagination_no_clamp_cx :
    getNotesPagination (some 0) none = (0, 20, -20) ∧
    getNotesPagination (some 0) none ≠ (1, 20, 0) ∧
    getNotes st1 1 page0Params = .error .serverError :=
  ⟨rfl, by decide, rfl⟩

/-- C8 (amended): the defaults `page = 1`, `pageSize = 20` apply only
when the parameter is absent; an explicitly supplied value is used
unclamped (`skip = (page - 1) * pageSize`), and whenever that skip is
negative — e.g. any non-positive page with the default page size — the
request fails with HTTP 500 rather than answering a clamped page. -/
theorem pagination_defaults_only_when_absent :
    (∀ p l : Int, getNotesPagination (some p) (some l) = (p, l, (p - 1) * l)) ∧
    getNotesPagination none none = (1, 20, 0) ∧
    (∀ st uid p, (getNotesPagination p.page p.limit).2.2 < 0 →
        getNotes st uid p = .error .serverError) := by
  refine ⟨fun p l => rfl, rfl, ?_⟩
  intro st uid p hneg
  unfold getNotes
  rcases he : getNotesPagination p.page p.limit with ⟨pn, ln, sk⟩
  rw [he] at hneg
  dsimp only at hneg ⊢
  rw [if_pos hneg]

/-- C8 witness: the amended statement at concrete inputs. -/
theorem pagination_defaults_witness :
    getNotesPagination (some 7) (some 5) = (7, 5, 30) ∧
    getNotesPagination none none = (1, 20, 0) ∧
    getNotes st1 1 page0Params = .error .serverError :=
  ⟨pagination_defaults_only_when_absent.1 7 5,
   pagination_defaults_only_when_absent.2.1,
   pagination_defaults_only_when_absent.2.2 st1 1 page0Params (by decide)⟩

/-! ## C9 — tag-name uniqueness -/

/-- A metacharacter-free name compiles to plain literal tokens. -/
theorem parseTagRegex_plain (l : List Char)
    (h : ∀ c ∈ l, isRegexMeta c = false) :
    parseTagRegex l = some (l.map RTok.lit) := by
  induction l with
  | nil => rfl
  | cons c rest ih =>
    cases rest with
    | nil =>
      have hc := h c (by simp)
      simp [parseTagRegex, hc]
    | cons d rest' =>
      have hc := h c (by simp)
      have hd := h d (by simp)
      have hdplus : ¬d = '+' := by
        intro he
        rw [he] at hd
        exact absurd hd (by decide)
      have hrest : ∀ x ∈ d :: rest', isRegexMeta x = false :=
        fun x hx => h x (List.mem_cons_of_mem _ hx)
      simp [parseTagRegex, hc, hdplus, ih hrest]

/-- A pattern of plain literals matches exactly the case-insensitively
equal strings. -/
theorem matchToks_lits (l : List Char) : ∀ xs : List Char,
    (matchToks (l.map RTok.lit) xs = true ↔
      l.map Char.toLower = xs.map Char.toLower) := by
  induction l with
  | nil => intro xs; cases xs <;> simp [matchToks]
  | cons c cs ih =>
    intro xs
    cases xs with
    | nil => simp [matchToks]
    | cons x xs' =>
      simp [matchToks, ciEqChar, Bool.and_eq_true, beq_iff_eq, ih xs']

/-- Equality of lower-cased strings is equality of the lower-cased
character lists. -/
theorem jsToLower_eq_iff (a b : String) :
    jsToLower a = jsToLower b ↔
      a.toList.map Char.toLower = b.toList.map Char.toLower := by
  unfold jsToLower
  exact ⟨fun h => congrArg String.toList h, fun h => congrArg String.mk h⟩

/-- A tag record with name "c+" owned by user 1. -/
def tagCplus : TagRec := { id := 1, name := "c+", color := "#3b82f6", user := 1 }

/-- C9 counterexample: "C+" differs from the existing same-owner tag
"c+" only by letter case, yet `createTag` succeeds and inserts the
duplicate — the pre-check splices the raw name into a regex, and the
pattern `^C+$` (one or more `C`) does not match "c+"; the case-aware
unique index `{ name, user }` does not object either. -/
theorem createTag_case_variant_cx :
    jsToLower "C+" = jsToLower "c+" ∧
    "C+" ≠ "c+" ∧
    createTag [tagCplus] 1 "C+" none 2 =
      .ok ({ id := 2, name := "C+", color := "#3b82f6", user := 1 },
           [tagCplus, { id := 2, name := "C+", color := "#3b82f6", user := 1 }]) :=
  ⟨rfl, by decide, rfl⟩

/-- C9 (amended): for tag names free of regex metacharacters the check
behaves as specified — creating a name that differs only by letter
case from an existing tag of the same owner fails with the
duplicate-name error and creates nothing, while the check is scoped to
the owner, so a different user can create the same (trimmed, valid)
name; names containing regex metacharacters can evade the check, as the
counterexample shows. -/
theorem createTag_ci_unique (tags : List TagRec) (uid : Nat) (name : String)
    (color : Option String) (newId : Nat)
    (hplain : ∀ c ∈ name.toList, isRegexMeta c = false) :
    ((∃ ex ∈ tags, ex.user = uid ∧ jsToLower ex.name = jsToLower name) →
       createTag tags uid name color newId =
         .error (.badRequest "Tag with this name already exists")) ∧
    ((∀ ex ∈ tags, ex.user = uid → jsToLower ex.name ≠ jsToLower name) →
     jsTrim name = name →
     1 ≤ name.length → name.length ≤ 30 →
     colorOk (color.getD "#3b82f6") = true →
       createTag tags uid name color newId =
         .ok ({ id := newId, name := name, color := color.getD "#3b82f6", user := uid },
              tags ++ [{ id := newId, name := name, color := color.getD "#3b82f6", user := uid }])) := by
  constructor
  · rintro ⟨ex, hmem, huser, hlow⟩
    have hm : matchToks (name.toList.map RTok.lit) ex.name.toList = true :=
      (matchToks_lits name.toList ex.name.toList).2
        ((jsToLower_eq_iff ex.name name).1 hlow).symm
    have hany : (tags.any fun t =>
        t.user = uid && matchToks (name.toList.map RTok.lit) t.name.toList) = true := by
      refine List.any_eq_true.2 ⟨ex, hmem, ?_⟩
      rw [Bool.and_eq_true]
      exact ⟨decide_eq_true huser, hm⟩
    unfold createTag
    rw [parseTagRegex_plain name.toList hplain]
    dsimp only
    rw [if_pos hany]
  · intro hnodup htrim hlen1 hlen2 hcolor
    have hany : (tags.any fun t =>
        t.user = uid && matchToks (name.toList.map RTok.lit) t.name.toList) = false := by
      rw [List.any_eq_false]
      intro t hmem
      intro hcontra
      rw [Bool.and_eq_true] at hcontra
      obtain ⟨huser, hmatch⟩ := hcontra
      have hlow : jsToLower t.name = jsToLower name :=
        (jsToLower_eq_iff t.name name).2
          ((matchToks_lits name.toList t.name.toList).1 hmatch).symm
      exact hnodup t hmem (by simpa using huser) hlow
    have hexact : (tags.any fun t => t.user = uid && t.name = name) = false := by
      rw [List.any_eq_false]
      intro t hmem hcontra
      rw [Bool.and_eq_true] at hcontra
      obtain ⟨huser, hname⟩ := hcontra
      refine hnodup t hmem (by simpa using huser) ?_
      rw [show t.name = name from by simpa using hname]
    unfold createTag
    rw [parseTagRegex_plain name.toList hplain]
    dsimp only
    rw [htrim]
    rw [if_neg (bool_ne_true hany)]
    have hval : (decide (name.length = 0) || decide (30 < name.length) ||
        !colorOk (color.getD "#3b82f6")) = false := by
      have h1 : ¬name.length = 0 := by omega
      have h2 : ¬30 < name.length := by omega
      simp [h1, h2, hcolor]
    rw [if_neg (bool_ne_true hval)]
    rw [if_neg (bool_ne_true hexact)]

/-- A tag record with name "Work" owned by user 1. -/
def tagWork : TagRec := { id := 1, name := "Work", color := "#3b82f6", user := 1 }

/-- C9 witness: the amended statement at concrete inputs — "wORK" for
the same owner is a duplicate of "Work", while user 2 can create
"Work" although user 1 already has it. -/
theorem createTag_ci_unique_witness :
    createTag [tagWork] 1 "wORK" none 2 =
      .error (.badRequest "Tag with this name already exists") ∧
    createTag [tagWork] 2 "Work" none 2 =
      .ok ({ id := 2, name := "Work", color := "#3b82f6", user := 2 },
           [tagWork, { id := 2, name := "Work", color := "#3b82f6", user := 2 }]) :=
  ⟨(createTag_ci_unique [tagWork] 1 "wORK" none 2 (by decide)).1
     ⟨tagWork, by decide, rfl, by decide⟩,
   (createTag_ci_unique [tagWork] 2 "Work" none 2 (by decide)).2
     (by decide) (by decide) (by decide) (by decide) (by decide)⟩

/-! ## C10 — restore touches only the trash fields -/

/-- C10: `restore` flips `isTrashed` to `false`, clears `trashedAt` and
touches no other field (besides the store-managed `updatedAt`); in
particular `isArchived` is preserved, so a note that was archived and
then trashed reappears after restore with `isArchived = true`, in the
archive view (`findArchived`) and in no default browse view. -/
theorem restoreNote_frame (st : Store) (uid nid : Nat) (now : Int) (n : Note)
    (hfind : st.notes.find?
        (fun m => m.id = nid && m.user = uid && m.isTrashed) = some n) :
    restoreNote st uid nid now =
      .ok (restoreDoc n now,
           { st with notes := replaceNote st.notes (restoreDoc n now) }) ∧
    (restoreDoc n now).isTrashed = false ∧
    (restoreDoc n now).trashedAt = none ∧
    sameExceptTrashFields (restoreDoc n now) n ∧
    (n.isArchived = true →
      restoreDoc n now ∈
        findArchived { st with notes := replaceNote st.notes (restoreDoc n now) } uid ∧
      (∀ p, matchesGetNotes uid p (restoreDoc n now) = false) ∧
      (∀ p res,
        getNotes { st with notes := replaceNote st.notes (restoreDoc n now) } uid p = .ok res →
        restoreDoc n now ∉ res.notes)) := by
  have heq : restoreNote st uid nid now =
      .ok (restoreDoc n now,
           { st with notes := replaceNote st.notes (restoreDoc n now) }) := by
    unfold restoreNote
    rw [hfind]
  refine ⟨heq, rfl, rfl,
    ⟨rfl, rfl, rfl, rfl, rfl, rfl, rfl, rfl, rfl, rfl, rfl, rfl, rfl, rfl,
     rfl, rfl, rfl⟩, ?_⟩
  intro harch
  have hmemn : n ∈ st.notes := List.mem_of_find?_eq_some hfind
  have hpred := List.find?_some hfind
  rw [Bool.and_eq_true, Bool.and_eq_true] at hpred
  obtain ⟨⟨-, huser⟩, -⟩ := hpred
  have huser' : (restoreDoc n now).user = uid := by simpa using huser
  have hA : (restoreDoc n now).isArchived = true := harch
  have hmem' : restoreDoc n now ∈ replaceNote st.notes (restoreDoc n now) := by
    unfold replaceNote
    refine List.mem_map.2 ⟨n, hmemn, ?_⟩
    have hid : n.id = (restoreDoc n now).id := rfl
    rw [if_pos hid]
  have hfalse : ∀ p, matchesGetNotes uid p (restoreDoc n now) = false := by
    intro p
    simp [matchesGetNotes, hA]
  refine ⟨?_, hfalse, ?_⟩
  · unfold findArchived
    rw [List.mem_mergeSort]
    refine List.mem_filter.2 ⟨hmem', ?_⟩
    have hT : (restoreDoc n now).isTrashed = false := rfl
    simp [huser', hA, hT]
  · intro p res hres hmem''
    have hmatch := (getNotes_mem _ _ _ _ _ hres hmem'').2
    rw [hfalse p] at hmatch
    exact absurd hmatch (by decide)

/-- C10 witness: restoring the archived-then-trashed `note3` — the
restored note keeps `isArchived = true`, appears in the archive view of
the updated store and matches no default-view filter. -/
theorem restoreNote_frame_witness :
    restoreNote stTrash 1 3 2000 =
      .ok (restoreDoc note3 2000,
           { stTrash with notes := replaceNote stTrash.notes (restoreDoc note3 2000) }) ∧
    (restoreDoc note3 2000).isTrashed = false ∧
    (restoreDoc note3 2000).trashedAt = none ∧
    sameExceptTrashFields (restoreDoc note3 2000) note3 ∧
    restoreDoc note3 2000 ∈
      findArchived { stTrash with notes := replaceNote stTrash.notes (restoreDoc note3 2000) } 1 ∧
    matchesGetNotes 1 defaultGNP (restoreDoc note3 2000) = false := by
  obtain ⟨h1, h2, h3, h4, h5⟩ := restoreNote_frame stTrash 1 3 2000 note3 rfl
  obtain ⟨ha, hb, -⟩ := h5 rfl
  exact ⟨h1, h2, h3, h4, ha, hb defaultGNP⟩

end Cognetix

